import Mathlib

/-!
Verification development for the `farvelade` color library.

The embedding models Python floats as exact real numbers (`ℝ`) for the
transform pipeline (tanh/atanh domain shifts, sRGB gamma, OKLab), exact
rationals (`ℚ`) for the deprecated constructor layer, and Python integers
as `ℤ`.  Python exceptions are modelled with `Except`; Python float
division raises `ZeroDivisionError` on a zero denominator, which the
embedding reflects with a checked division.  `round` models Python's
`round` as round-half-up (`Mathlib`'s `round`); the two agree away from
exact half-integers, and no statement below depends on a half-integer tie.
-/

namespace Farvelade

/-- Exceptions observable from the modelled code paths. -/
inductive PyErr where
  | unitDomain (value : ℝ)
  | integerDomain (value : ℤ)
  | zeroDivision

/-- State of `RougeVertBleu`: the three private channel variables.
`none` models an unset `__red_channel__` (etc.), read through the
`maybe(channel, fallback)` getters with fallback 255. -/
structure RVB where
  red : Option ℤ
  green : Option ℤ
  blue : Option ℤ
  deriving DecidableEq

/-- `_getRed`: `maybe(self.__red_channel__, self.__red_fallback__)`. -/
def getRed (s : RVB) : ℤ := s.red.getD 255

/-- `_getGreen`. -/
def getGreen (s : RVB) : ℤ := s.green.getD 255

/-- `_getBlue`. -/
def getBlue (s : RVB) : ℤ := s.blue.getD 255

/-- `_setRed`: stores the value into the private channel, with no
validation of any kind. -/
def setRed (v : ℤ) (s : RVB) : RVB := { s with red := some v }

/-- `_setGreen`. -/
def setGreen (v : ℤ) (s : RVB) : RVB := { s with green := some v }

/-- `_setBlue`. -/
def setBlue (v : ℤ) (s : RVB) : RVB := { s with blue := some v }

/-- `_validateIntegerRange`: raises `IntegerDomainException` outside
`[0, 255]`.  Used by the three-integer constructor (not by the setters). -/
def validateIntegerRange (v : ℤ) : Except PyErr Unit :=
  if v < 0 ∨ 255 < v then .error (.integerDomain v) else .ok ()

/-- The `(int, int, int)` constructor overload: validates all three
arguments then assigns the channels. -/
def initInts3 (r g b : ℤ) : Except PyErr RVB := do
  _ ← validateIntegerRange r
  _ ← validateIntegerRange g
  _ ← validateIntegerRange b
  .ok ⟨some r, some g, some b⟩

/-- The `(str)` constructor overload.  The source computes
`values = getcolor(color, 'RGB')` and never uses it: the constructor
returns with all private channels still unset.  The externally resolved
channel tuple is passed in as a parameter (the name table is an external
collaborator). -/
def initStr (resolved : ℤ × ℤ × ℤ) : RVB :=
  let values := resolved
  ⟨none, none, none⟩

/-- The keyword constructor overload: each of red/green/blue defaults to
255 when no keyword for it is given, then delegates to the three-integer
constructor. -/
def initKwargs0 (r g b : Option ℤ) : Except PyErr RVB :=
  initInts3 (r.getD 255) (g.getD 255) (b.getD 255)

/-- `__eq__` of the current `RougeVertBleu`: any nonzero squared channel
difference is truthy and returns `False`; otherwise `True`. -/
def rvbEq (s o : RVB) : Bool :=
  if (getRed s - getRed o) ^ 2 ≠ 0 then false
  else if (getGreen s - getGreen o) ^ 2 ≠ 0 then false
  else if (getBlue s - getBlue o) ^ 2 ≠ 0 then false
  else true

end Farvelade

namespace Deprecated

/-- Exceptions of the deprecated constructor layer. -/
inductive ErrQ where
  | unitRange (value : ℚ)
  deriving DecidableEq

/-- State of the deprecated `RougeVertBleu`: four plain integer channels
(`AttriBox[int](255)`). -/
structure RVBA where
  red : ℤ
  green : ℤ
  blue : ℤ
  alpha : ℤ
  deriving DecidableEq

/-- The deprecated `(int, int, int, int)` overload: assigns verbatim. -/
def initInts4 (r g b a : ℤ) : RVBA := ⟨r, g, b, a⟩

/-- The deprecated `(int, int, int)` overload: alpha defaults to 255. -/
def initInts3 (r g b : ℤ) : RVBA := initInts4 r g b 255

/-- The deprecated `(float, float, float, float)` overload: each argument
is checked against the unit range in order (first offender raises
`UnitRangeException`), then converted by `round(arg * 255)`. -/
def initFloats4 (f1 f2 f3 f4 : ℚ) : Except ErrQ RVBA :=
  if 1 < f1 ∨ f1 < 0 then .error (.unitRange f1)
  else if 1 < f2 ∨ f2 < 0 then .error (.unitRange f2)
  else if 1 < f3 ∨ f3 < 0 then .error (.unitRange f3)
  else if 1 < f4 ∨ f4 < 0 then .error (.unitRange f4)
  else .ok ⟨round (f1 * 255), round (f2 * 255), round (f3 * 255), round (f4 * 255)⟩

/-- The deprecated `(float, float, float)` overload: alpha defaults to
`1.0`. -/
def initFloats3 (f1 f2 f3 : ℚ) : Except ErrQ RVBA := initFloats4 f1 f2 f3 1

/-- The deprecated keyword overload: each channel defaults to 255 when no
keyword synonym for it is present. -/
def initKwargs (r g b a : Option ℤ) : RVBA :=
  initInts4 (r.getD 255) (g.getD 255) (b.getD 255) (a.getD 255)

/-- The deprecated `(float, float, float)` overload with explicit unit
bounds spelled out, used only for statements. -/
def unitRange3 (f1 f2 f3 : ℚ) : Prop :=
  (0 ≤ f1 ∧ f1 ≤ 1) ∧ (0 ≤ f2 ∧ f2 ≤ 1) ∧ (0 ≤ f3 ∧ f3 ≤ 1)

instance (f1 f2 f3 : ℚ) : Decidable (unitRange3 f1 f2 f3) := by
  unfold unitRange3; infer_instance

/-- The squared-difference loss of the deprecated `__eq__`. -/
def eqLoss (s o : RVBA) : ℤ :=
  (s.red - o.red) ^ 2 + (s.green - o.green) ^ 2
    + (s.blue - o.blue) ^ 2 + (s.alpha - o.alpha) ^ 2

/-- The deprecated `__eq__`: zero loss is exact equality, a loss below 16
still reports equal but prints a diagnostic note (second component),
anything else is unequal. -/
def eqFuzzy (s o : RVBA) : Bool × Bool :=
  if eqLoss s o = 0 then (true, false)
  else if eqLoss s o < 16 then (true, true)
  else (false, false)

end Deprecated

namespace Farvelade

/-- The module-level constant `epsilon = 1e-10`. -/
noncomputable def eps : ℝ := 1e-10

/-- `_unitToSigned`: shift `[0,1]` to `(-1,1)`, clamping with `epsilon`
(the source applies `min` then `max`). -/
noncomputable def unitToSigned (v : ℝ) : ℝ :=
  max (-1 + eps) (min (1 - eps) (v * 2 - 1))

/-- `_signedToUnit`: shift `(-1,1)` to `(0,1)`, clamping with `epsilon`
(the source applies `min` then `max`). -/
noncomputable def signedToUnit (v : ℝ) : ℝ :=
  max (0 + eps) (min (1 - eps) ((v + 1) / 2))

/-- `math.atanh`, written with its logarithmic closed form. -/
noncomputable def artanh (x : ℝ) : ℝ := Real.log ((1 + x) / (1 - x)) / 2

/-- `_unitToReal`: validates the unit range, then `atanh` of the signed
remapping. -/
noncomputable def unitToReal (v : ℝ) : Except PyErr ℝ :=
  if 1 < v ∨ v < 0 then .error (.unitDomain v)
  else .ok (artanh (unitToSigned v))

/-- `_realToUnit`: the unit remapping of `tanh`; total. -/
noncomputable def realToUnit (v : ℝ) : ℝ := signedToUnit (Real.tanh v)

/-- `_applyGamma`: sRGB gamma decode with unit-range validation. -/
noncomputable def applyGamma (v : ℝ) : Except PyErr ℝ :=
  if v < 0 ∨ 1 < v then .error (.unitDomain v)
  else if v < 0.04045 then .ok (v / 12.92)
  else .ok (((v + 0.055) / 1.055) ^ (2.4 : ℝ))

/-- `_unApplyGamma`: sRGB gamma encode with unit-range validation. -/
noncomputable def unApplyGamma (v : ℝ) : Except PyErr ℝ :=
  if v < 0 ∨ 1 < v then .error (.unitDomain v)
  else if v < 0.0031308 then .ok (v * 12.92)
  else .ok (1.055 * v ^ ((1 : ℝ) / 2.4) - 0.055)

/-- `OKLab._cubeRoot` with its single recursive call on `-value`
unfolded: zero below the `epsilon` threshold on the square, otherwise a
sign-preserving real cube root. -/
noncomputable def cubeRoot (v : ℝ) : ℝ :=
  if v ^ 2 < eps then 0
  else if v < 0 then -((-v) ^ ((1 : ℝ) / 3))
  else v ^ ((1 : ℝ) / 3)

/-- Python float division: raises `ZeroDivisionError` on a zero
denominator instead of yielding NaN or an infinity. -/
noncomputable def pydiv (a b : ℝ) : Except PyErr ℝ :=
  if b = 0 then .error .zeroDivision else .ok (a / b)

/-- Python `%` on floats (used by the hue formula): `x - y*⌊x/y⌋`. -/
noncomputable def pymod (x y : ℝ) : ℝ := x - y * ⌊x / y⌋

/-- `_getRedF`: `red / 255.0`. -/
noncomputable def redF (s : RVB) : ℝ := (getRed s : ℝ) / 255

/-- `_getGreenF`. -/
noncomputable def greenF (s : RVB) : ℝ := (getGreen s : ℝ) / 255

/-- `_getBlueF`. -/
noncomputable def blueF (s : RVB) : ℝ := (getBlue s : ℝ) / 255

/-- The value of `_getRedReal` when the unit check passes. -/
noncomputable def redRealV (s : RVB) : ℝ := artanh (unitToSigned (redF s))

/-- `_getGreenReal`, value form. -/
noncomputable def greenRealV (s : RVB) : ℝ := artanh (unitToSigned (greenF s))

/-- `_getBlueReal`, value form. -/
noncomputable def blueRealV (s : RVB) : ℝ := artanh (unitToSigned (blueF s))

/-- `_getRedReal`: `unitToReal(self.redF)` (may raise for channels
outside `[0,255]`, which the unvalidated integer setters allow). -/
noncomputable def getRedReal (s : RVB) : Except PyErr ℝ := unitToReal (redF s)

/-- `_getGreenReal`. -/
noncomputable def getGreenReal (s : RVB) : Except PyErr ℝ := unitToReal (greenF s)

/-- `_getBlueReal`. -/
noncomputable def getBlueReal (s : RVB) : Except PyErr ℝ := unitToReal (blueF s)

/-- `_validateUnitRange` followed by the body of `_setRedF`: unit-range
check, then store `round(value * 255.0)`. -/
noncomputable def setRedF (v : ℝ) (s : RVB) : Except PyErr RVB :=
  if v < 0 ∨ 1 < v then .error (.unitDomain v)
  else .ok { s with red := some (round (v * 255)) }

/-- `_setGreenF`. -/
noncomputable def setGreenF (v : ℝ) (s : RVB) : Except PyErr RVB :=
  if v < 0 ∨ 1 < v then .error (.unitDomain v)
  else .ok { s with green := some (round (v * 255)) }

/-- `_setBlueF`. -/
noncomputable def setBlueF (v : ℝ) (s : RVB) : Except PyErr RVB :=
  if v < 0 ∨ 1 < v then .error (.unitDomain v)
  else .ok { s with blue := some (round (v * 255)) }

/-- `_setRedReal`: stores `round(realToUnit(value) * 255.0)`; performs no
validation and cannot raise. -/
noncomputable def setRedReal (v : ℝ) (s : RVB) : RVB :=
  { s with red := some (round (realToUnit v * 255)) }

/-- `_setGreenReal`. -/
noncomputable def setGreenReal (v : ℝ) (s : RVB) : RVB :=
  { s with green := some (round (realToUnit v * 255)) }

/-- `_setBlueReal`. -/
noncomputable def setBlueReal (v : ℝ) (s : RVB) : RVB :=
  { s with blue := some (round (realToUnit v * 255)) }

/-- `_setRedGamma`: `self.redF = self._unApplyGamma(value)`. -/
noncomputable def setRedGamma (v : ℝ) (s : RVB) : Except PyErr RVB := do
  let f ← unApplyGamma v
  setRedF f s

/-- `_setGreenGamma`. -/
noncomputable def setGreenGamma (v : ℝ) (s : RVB) : Except PyErr RVB := do
  let f ← unApplyGamma v
  setGreenF f s

/-- `_setBlueGamma`. -/
noncomputable def setBlueGamma (v : ℝ) (s : RVB) : Except PyErr RVB := do
  let f ← unApplyGamma v
  setBlueF f s

/-- A state whose channels were set by the validated integer
constructor. -/
def validRVB (s : RVB) : Prop :=
  0 ≤ getRed s ∧ getRed s ≤ 255 ∧ 0 ≤ getGreen s ∧ getGreen s ≤ 255
    ∧ 0 ≤ getBlue s ∧ getBlue s ≤ 255

instance (s : RVB) : Decidable (validRVB s) := by
  unfold validRVB; infer_instance

/-- The no-argument constructor path (keyword overload with no keywords):
all three channels default to 255. -/
def rvbDefault : RVB := ⟨some 255, some 255, some 255⟩

/-- `HSV._getValue`: `max(redF, greenF, blueF)`. -/
noncomputable def valueF (s : RVB) : ℝ := max (redF s) (max (greenF s) (blueF s))

/-- The `delta` of `HSV._getHue`: max channel minus min channel. -/
noncomputable def hueDelta (s : RVB) : ℝ :=
  valueF s - min (redF s) (min (greenF s) (blueF s))

/-- The sector selection of `HSV._getHue` (before the division by 6). -/
noncomputable def hueSector (s : RVB) : ℝ :=
  if valueF s = redF s then pymod ((greenF s - blueF s) / hueDelta s) 6
  else if valueF s = greenF s then (blueF s - redF s) / hueDelta s + 2
  else (redF s - greenF s) / hueDelta s + 4

/-- `HSV._getHue`: 0 when `delta < epsilon`, otherwise the max-channel
sector value divided by 6. -/
noncomputable def hueF (s : RVB) : ℝ :=
  if hueDelta s < eps then 0 else hueSector s / 6

/-- `OKLab._getLab`: gamma-decode the three channels (each validated),
apply the RGB→LMS matrix, the signed cube root, and the LMS→Lab
matrix. -/
noncomputable def getLab (s : RVB) : Except PyErr (ℝ × ℝ × ℝ) := do
  let r ← applyGamma (redF s)
  let g ← applyGamma (greenF s)
  let b ← applyGamma (blueF s)
  let L0 := 0.4122214708 * r + 0.5363325363 * g + 0.0514459929 * b
  let M0 := 0.2119034982 * r + 0.6806995451 * g + 0.1073969566 * b
  let S0 := 0.0883024619 * r + 0.2817188376 * g + 0.6299787005 * b
  let L1 := cubeRoot L0
  let M1 := cubeRoot M0
  let S1 := cubeRoot S0
  .ok (0.2104542553 * L1 + 0.7936177850 * M1 - 0.0040720468 * S1,
       1.9779984951 * L1 - 2.4285922050 * M1 + 0.4505937099 * S1,
       0.0259040371 * L1 + 0.7827717662 * M1 - 0.8086757660 * S1)

/-- `OKLab.L` getter. -/
noncomputable def getL (s : RVB) : Except PyErr ℝ := do
  let lab ← getLab s
  .ok lab.1

/-- `OKLab.A` getter. -/
noncomputable def getA (s : RVB) : Except PyErr ℝ := do
  let lab ← getLab s
  .ok lab.2.1

/-- `OKLab.B` getter. -/
noncomputable def getB (s : RVB) : Except PyErr ℝ := do
  let lab ← getLab s
  .ok lab.2.2

/-- `OKLab._getGammaRGB`: cube three linear combinations of (L, A, B)
and apply the LMS→RGB matrix. -/
noncomputable def getGammaRGB (L A B : ℝ) : ℝ × ℝ × ℝ :=
  let L0 := (L + 0.3963377774 * A + 0.2158037573 * B) ^ 3
  let M0 := (L - 0.1055613458 * A - 0.0638541728 * B) ^ 3
  let S0 := (L - 0.0894841775 * A - 1.2914855480 * B) ^ 3
  (4.0767416621 * L0 - 3.3077115913 * M0 + 0.2309699292 * S0,
   -1.2684380049 * L0 + 2.6097574011 * M0 - 0.3413193965 * S0,
   -0.0041960863 * L0 - 0.7034186147 * M0 + 2.4092283606 * S0)

/-- `OKLab._setL`: reads the current A and B, solves the inverse
transform, and assigns the three gamma views in order. -/
noncomputable def oklabSetL (v : ℝ) (s : RVB) : Except PyErr RVB := do
  let a ← getA s
  let b ← getB s
  let rgb := getGammaRGB v a b
  let s1 ← setRedGamma rgb.1 s
  let s2 ← setGreenGamma rgb.2.1 s1
  setBlueGamma rgb.2.2 s2

/-- `OKLab._setA`. -/
noncomputable def oklabSetA (v : ℝ) (s : RVB) : Except PyErr RVB := do
  let l ← getL s
  let b ← getB s
  let rgb := getGammaRGB l v b
  let s1 ← setRedGamma rgb.1 s
  let s2 ← setGreenGamma rgb.2.1 s1
  setBlueGamma rgb.2.2 s2

/-- `OKLab._setB`. -/
noncomputable def oklabSetB (v : ℝ) (s : RVB) : Except PyErr RVB := do
  let l ← getL s
  let a ← getA s
  let rgb := getGammaRGB l a v
  let s1 ← setRedGamma rgb.1 s
  let s2 ← setGreenGamma rgb.2.1 s1
  setBlueGamma rgb.2.2 s2

/-- `OKLab.__add__`: a default-constructed result color receives
`L := (L₁+L₂)/2`, then `A := A₁+A₂`, then `B := B₁+B₂`, through the
coupled L/A/B setters. -/
noncomputable def oklabAdd (s o : RVB) : Except PyErr RVB := do
  let L1 ← getL s
  let L2 ← getL o
  let out1 ← oklabSetL ((L1 + L2) / 2) rvbDefault
  let A1 ← getA s
  let A2 ← getA o
  let out2 ← oklabSetA (A1 + A2) out1
  let B1 ← getB s
  let B2 ← getB o
  oklabSetB (B1 + B2) out2

/-- The `__add__` semantics transcribed from the specification's words:
`L = (L₁+L₂)/2` (averaged), `A = A₁+A₂` and `B = B₁+B₂` (summed), each
target written through the class's own L/A/B setter, in that order, onto
a fresh default-constructed color. -/
noncomputable def oklabAddSpec (s o : RVB) : Except PyErr RVB := do
  let L1 ← getL s
  let L2 ← getL o
  let afterL ← oklabSetL ((L1 + L2) / 2) rvbDefault
  let A1 ← getA s
  let A2 ← getA o
  let afterA ← oklabSetA (A1 + A2) afterL
  let B1 ← getB s
  let B2 ← getB o
  oklabSetB (B1 + B2) afterA

/-- `OKLab.__mul__`: per channel, read both operands' real views, then
compute `r₁*r₂ / (r₁+r₂)` with Python division, then write the three
real views of a default-constructed color. -/
noncomputable def oklabMul (s o : RVB) : Except PyErr RVB := do
  let r1 ← getRedReal s
  let r2 ← getRedReal o
  let r ← pydiv (r1 * r2) (r1 + r2)
  let g1 ← getGreenReal s
  let g2 ← getGreenReal o
  let g ← pydiv (g1 * g2) (g1 + g2)
  let b1 ← getBlueReal s
  let b2 ← getBlueReal o
  let b ← pydiv (b1 * b2) (b1 + b2)
  .ok (setBlueReal b (setGreenReal g (setRedReal r rvbDefault)))

/-- `OKLab.__invert__`: per channel, `1 / realView`, then write the
three real views of a default-constructed color. -/
noncomputable def oklabInvert (s : RVB) : Except PyErr RVB := do
  let r0 ← getRedReal s
  let r ← pydiv 1 r0
  let g0 ← getGreenReal s
  let g ← pydiv 1 g0
  let b0 ← getBlueReal s
  let b ← pydiv 1 b0
  .ok (setBlueReal b (setGreenReal g (setRedReal r rvbDefault)))

/-- The cube root of the white point's middle LMS coordinate
`M0 = 0.2119034982 + 0.6806995451 + 0.1073969566 = 1 - 1e-10`. -/
noncomputable def wm : ℝ := (0.9999999999 : ℝ) ^ ((1 : ℝ) / 3)

/-- The A (green-red chroma) value of the default white color. -/
noncomputable def wA : ℝ := 2.4285922050 * (1 - wm)

/-- The B (blue-yellow chroma) value of the default white color. -/
noncomputable def wB : ℝ := 0.0000000373 - 0.7827717662 * (1 - wm)

end Farvelade

open Farvelade Deprecated

/-- C5 counterexample: the colors (0,0,0) and (1,0,0) have squared
channel distance 1, which is nonzero and below 16, yet the current
equality operator reports them unequal — there is no fuzzy branch. -/
theorem rvbEqHasNoFuzzyBranch :
    rvbEq ⟨some 0, some 0, some 0⟩ ⟨some 1, some 0, some 0⟩ = false
      ∧ ((0 : ℤ) - 1) ^ 2 + ((0 : ℤ) - 0) ^ 2 + ((0 : ℤ) - 0) ^ 2 = 1
      ∧ (0 : ℤ) < 1 ∧ (1 : ℤ) < 16 := by
  decide

/-- C5 amended: the current `__eq__` reports equal exactly when all three
integer channels agree; the fuzzy threshold-16 branch exists only in the
deprecated class, whose `__eq__` reports equal iff the squared loss is
below 16 and prints its diagnostic note iff the loss is nonzero and
below 16. -/
theorem rvbEqExactDeprecatedFuzzy :
    (∀ s o : RVB, rvbEq s o = true ↔
      (getRed s = getRed o ∧ getGreen s = getGreen o ∧ getBlue s = getBlue o))
    ∧ (∀ a b : RVBA,
      eqFuzzy a b =
        (decide (eqLoss a b < 16), decide (0 < eqLoss a b ∧ eqLoss a b < 16))) := by
  constructor
  · intro s o
    by_cases hr : getRed s = getRed o <;>
      by_cases hg : getGreen s = getGreen o <;>
      by_cases hb : getBlue s = getBlue o <;>
      simp [rvbEq, hr, hg, hb, sub_eq_zero, pow_eq_zero_iff]
  · intro a b
    have hnn : 0 ≤ eqLoss a b := by unfold eqLoss; positivity
    unfold eqFuzzy
    split_ifs with h1 h2 <;> simp_all <;> omega

/-- C6: constructing the deprecated color from three unit floats succeeds
and matches the integer construction from `round(f*255)`; the literal
forms (1.0, 0.0, 0.0), (255, 0, 0) and the keyword form r=255, g=0, b=0
produce identical states; a float channel outside the unit range raises
`UnitRangeException`. -/
theorem constructionFormEquivalence : ∀ f1 f2 f3 : ℚ,
    (unitRange3 f1 f2 f3 →
      initFloats3 f1 f2 f3 =
        .ok (Deprecated.initInts3 (round (f1 * 255)) (round (f2 * 255))
          (round (f3 * 255))))
    ∧ initFloats3 1 0 0 = .ok (Deprecated.initInts3 255 0 0)
    ∧ Deprecated.initInts3 255 0 0 = initKwargs (some 255) (some 0) (some 0) none
    ∧ (1 < f1 ∨ f1 < 0 → initFloats3 f1 f2 f3 = .error (.unitRange f1)) := by
  intro f1 f2 f3
  have base : ∀ g1 g2 g3 : ℚ, unitRange3 g1 g2 g3 →
      initFloats3 g1 g2 g3 =
        .ok (Deprecated.initInts3 (round (g1 * 255)) (round (g2 * 255))
          (round (g3 * 255))) := by
    rintro g1 g2 g3 ⟨⟨h1, h2⟩, ⟨h3, h4⟩, h5, h6⟩
    unfold initFloats3 initFloats4 Deprecated.initInts3 initInts4
    rw [if_neg (by rintro (h | h) <;> linarith),
      if_neg (by rintro (h | h) <;> linarith),
      if_neg (by rintro (h | h) <;> linarith),
      if_neg (by rintro (h | h) <;> norm_num at h)]
    norm_num
  refine ⟨base f1 f2 f3, ?_, by rfl, ?_⟩
  · have h := base 1 0 0 (by norm_num [unitRange3])
    rw [h]
    norm_num
  · intro h
    unfold initFloats3 initFloats4
    rw [if_pos h]

/-- C6 witness: the construction-form equivalence applied at the concrete
floats (1/2, 0, 1) and, for the failure clause, at a first channel of
2. -/
theorem constructionFormEquivalenceWitness :
    initFloats3 (1 / 2) 0 1 =
      .ok (Deprecated.initInts3 (round ((1 / 2 : ℚ) * 255)) (round ((0 : ℚ) * 255))
        (round ((1 : ℚ) * 255)))
    ∧ initFloats3 2 0 0 = .error (.unitRange 2) :=
  ⟨(constructionFormEquivalence (1 / 2) 0 1).1 (by norm_num [unitRange3]),
    (constructionFormEquivalence 2 0 0).2.2.2 (Or.inl (by norm_num))⟩

/-- C7 counterexample: directly assigning 300 to the red channel stores
the out-of-range value silently; no exception interrupts the setter and
the resulting state violates the channel range invariant. -/
theorem setRedStoresOutOfRange :
    getRed (setRed 300 ⟨some 0, some 0, some 0⟩) = 300
      ∧ (255 : ℤ) < getRed (setRed 300 ⟨some 0, some 0, some 0⟩) := by
  decide

/-- C7 amended: the direct integer channel setters store their argument
verbatim with no validation and cannot raise; range validation against
`[0,255]` (raising `IntegerDomainException`) happens in the integer
constructor path, not at assignment. -/
theorem setterUnvalidatedInitValidated : ∀ (s : RVB) (v : ℤ),
    getRed (setRed v s) = v ∧ getGreen (setGreen v s) = v
      ∧ getBlue (setBlue v s) = v
      ∧ (v < 0 ∨ 255 < v → validateIntegerRange v = .error (.integerDomain v)) := by
  intro s v
  refine ⟨rfl, rfl, rfl, fun h => ?_⟩
  unfold validateIntegerRange
  rw [if_pos h]

/-- C7 witness: the setter/constructor dichotomy applied at the concrete
out-of-range value 300. -/
theorem setterUnvalidatedInitValidatedWitness :
    getRed (setRed 300 rvbDefault) = 300
      ∧ validateIntegerRange 300 = .error (.integerDomain 300) :=
  ⟨(setterUnvalidatedInitValidated rvbDefault 300).1,
    (setterUnvalidatedInitValidated rvbDefault 300).2.2.2 (Or.inr (by decide))⟩

/-- C8: the string-constructor overload discards the channel tuple
resolved from the name table; with the table resolving the key to
(255, 0, 0), every channel of the constructed color still reads the
fallback value 255, so the green channel is 255 rather than 0. -/
theorem initStrDiscardsResolvedChannels :
    getRed (initStr (255, 0, 0)) = 255
      ∧ getGreen (initStr (255, 0, 0)) = 255
      ∧ getBlue (initStr (255, 0, 0)) = 255 := by
  decide

lemma signedToUnit_bounds (t : ℝ) :
    eps ≤ signedToUnit t ∧ signedToUnit t ≤ 1 - eps := by
  unfold signedToUnit
  refine ⟨by simpa using le_max_left _ _, max_le (by norm_num [eps]) (min_le_left _ _)⟩

/-- C10: the real-to-unit transform lands in `[epsilon, 1 - epsilon]` for
every real input, and the real-line channel setter therefore always
stores an integer in `[0, 255]` (the setter performs no validation and
raises nothing). -/
theorem realToUnitBounded : ∀ (v : ℝ) (s : RVB),
    eps ≤ realToUnit v ∧ realToUnit v ≤ 1 - eps
      ∧ getRed (setRedReal v s) = round (realToUnit v * 255)
      ∧ 0 ≤ getRed (setRedReal v s) ∧ getRed (setRedReal v s) ≤ 255 := by
  intro v s
  obtain ⟨hlo, hhi⟩ := signedToUnit_bounds (Real.tanh v)
  have hlo' : eps ≤ realToUnit v := hlo
  have hhi' : realToUnit v ≤ 1 - eps := hhi
  norm_num [eps] at hlo' hhi'
  refine ⟨hlo, hhi, rfl, ?_, ?_⟩
  · show (0 : ℤ) ≤ round (realToUnit v * 255)
    rw [round_eq]
    refine Int.le_floor.mpr ?_
    push_cast
    nlinarith
  · show round (realToUnit v * 255) ≤ 255
    rw [round_eq]
    have h : ⌊realToUnit v * 255 + 1 / 2⌋ < 256 := Int.floor_lt.mpr (by push_cast; nlinarith)
    omega

lemma pymod_nonneg (x : ℝ) : 0 ≤ pymod x 6 := by
  unfold pymod
  have h := Int.floor_le (x / 6)
  nlinarith

lemma pymod_lt_six (x : ℝ) : pymod x 6 < 6 := by
  unfold pymod
  have h := Int.lt_floor_add_one (x / 6)
  nlinarith

lemma ratio_bound {d x : ℝ} (hd : 0 < d) (h1 : x ≤ d) (h2 : -d ≤ x) :
    -1 ≤ x / d ∧ x / d ≤ 1 := by
  constructor
  · rw [le_div_iff hd]; linarith
  · rw [div_le_one hd]; exact h1

/-- C9: the hue view is 0 when the channel spread is below epsilon and
otherwise the max-channel sector formula divided by 6; in all cases it
lies in the half-open interval [0, 1). -/
theorem hueNormalized : ∀ s : RVB,
    hueF s = (if hueDelta s < eps then 0 else hueSector s / 6)
      ∧ 0 ≤ hueF s ∧ hueF s < 1 := by
  intro s
  refine ⟨rfl, ?_⟩
  unfold hueF
  split_ifs with hd
  · norm_num
  · have hdpos : 0 < hueDelta s := lt_of_lt_of_le (by norm_num [eps]) (not_lt.mp hd)
    have hrv : redF s ≤ valueF s := le_max_left _ _
    have hgv : greenF s ≤ valueF s := le_max_of_le_right (le_max_left _ _)
    have hbv : blueF s ≤ valueF s := le_max_of_le_right (le_max_right _ _)
    have hrm : min (redF s) (min (greenF s) (blueF s)) ≤ redF s := min_le_left _ _
    have hgm : min (redF s) (min (greenF s) (blueF s)) ≤ greenF s :=
      le_trans (min_le_right _ _) (min_le_left _ _)
    have hbm : min (redF s) (min (greenF s) (blueF s)) ≤ blueF s :=
      le_trans (min_le_right _ _) (min_le_right _ _)
    have hdelta : hueDelta s = valueF s - min (redF s) (min (greenF s) (blueF s)) := rfl
    unfold hueSector
    split_ifs with h1 h2
    · have ha := pymod_nonneg ((greenF s - blueF s) / hueDelta s)
      have hb := pymod_lt_six ((greenF s - blueF s) / hueDelta s)
      constructor <;> [positivity; linarith]
    · obtain ⟨ha, hb⟩ := ratio_bound (x := blueF s - redF s) hdpos
        (by rw [hdelta]; linarith) (by rw [hdelta]; linarith)
      constructor <;> linarith
    · obtain ⟨ha, hb⟩ := ratio_bound (x := redF s - greenF s) hdpos
        (by rw [hdelta]; linarith) (by rw [hdelta]; linarith)
      constructor <;> linarith

lemma tanh_artanh {x : ℝ} (h1 : -1 < x) (h2 : x < 1) :
    Real.tanh (artanh x) = x := by
  have hx1 : (0 : ℝ) < 1 - x := by linarith
  have hx2 : (0 : ℝ) < 1 + x := by linarith
  have ht : (0 : ℝ) < (1 + x) / (1 - x) := div_pos hx2 hx1
  have hexp : Real.exp (artanh x) * Real.exp (artanh x) = (1 + x) / (1 - x) := by
    rw [← Real.exp_add]
    unfold artanh
    rw [show Real.log ((1 + x) / (1 - x)) / 2 + Real.log ((1 + x) / (1 - x)) / 2
      = Real.log ((1 + x) / (1 - x)) by ring]
    exact Real.exp_log ht
  have he : (0 : ℝ) < Real.exp (artanh x) := Real.exp_pos _
  have hb : Real.exp (artanh x) * Real.exp (artanh x) * (1 - x) = 1 + x := by
    rw [hexp]; field_simp
  rw [Real.tanh_eq_sinh_div_cosh, Real.sinh_eq, Real.cosh_eq, Real.exp_neg]
  have hsum : (0 : ℝ) <
      (Real.exp (artanh x) + (Real.exp (artanh x))⁻¹) / 2 := by positivity
  rw [div_eq_iff (ne_of_gt hsum)]
  field_simp
  linear_combination hb

/-- C1: for unit values strictly inside (1e-6, 1 - 1e-6), the
unit-to-real transform succeeds and the real-to-unit transform carries
its output back to the original value within 1e-6 (in fact exactly). -/
theorem unitRealRoundTrip : ∀ u : ℝ, 1e-6 < u → u < 1 - 1e-6 →
    ∃ r : ℝ, unitToReal u = .ok r ∧ |realToUnit r - u| ≤ 1e-6 := by
  intro u h1 h2
  have hus : unitToSigned u = u * 2 - 1 := by
    unfold unitToSigned
    rw [min_eq_right (by norm_num [eps]; linarith),
      max_eq_right (by norm_num [eps]; linarith)]
  refine ⟨artanh (unitToSigned u), ?_, ?_⟩
  · unfold unitToReal
    rw [if_neg (by rintro (h | h) <;> linarith)]
  · unfold realToUnit
    rw [hus, tanh_artanh (by linarith) (by linarith)]
    unfold signedToUnit
    rw [show (u * 2 - 1 + 1) / 2 = u by ring,
      min_eq_right (by norm_num [eps]; linarith),
      max_eq_right (by norm_num [eps]; linarith), sub_self, abs_zero]
    norm_num

/-- C1 witness: the round-trip theorem applied at u = 1/2. -/
theorem unitRealRoundTripWitness :
    (1e-6 : ℝ) < 1 / 2 ∧ (1 / 2 : ℝ) < 1 - 1e-6
      ∧ ∃ r : ℝ, unitToReal (1 / 2) = .ok r ∧ |realToUnit r - 1 / 2| ≤ 1e-6 :=
  ⟨by norm_num, by norm_num,
    unitRealRoundTrip (1 / 2) (by norm_num) (by norm_num)⟩

lemma bind_ok_eq {ε α β : Type} (a : α) (f : α → Except ε β) :
    (Except.ok a >>= f : Except ε β) = f a := rfl

lemma bind_error_eq {ε α β : Type} (e : ε) (f : α → Except ε β) :
    (Except.error e >>= f : Except ε β) = .error e := rfl

lemma unitToSigned_mem (v : ℝ) :
    -1 < unitToSigned v ∧ unitToSigned v < 1 := by
  unfold unitToSigned
  constructor
  · exact lt_of_lt_of_le (by norm_num [eps]) (le_max_left _ _)
  · exact lt_of_le_of_lt (max_le (by norm_num [eps]) (min_le_left _ _))
      (by norm_num [eps])

lemma unitToSigned_int_ne (c : ℤ) : unitToSigned ((c : ℝ) / 255) ≠ 0 := by
  unfold unitToSigned
  rcases le_or_lt ((c : ℝ) / 255 * 2 - 1) (1 - eps) with hle | hgt
  · rw [min_eq_right hle]
    rcases le_or_lt (-1 + eps) ((c : ℝ) / 255 * 2 - 1) with h2 | h2
    · rw [max_eq_right h2]
      intro h0
      have hc : (c : ℝ) * 2 = 255 := by field_simp at h0; linarith
      have : (c * 2 : ℤ) = 255 := by exact_mod_cast hc
      omega
    · rw [max_eq_left h2.le]; norm_num [eps]
  · rw [min_eq_left hgt.le, max_eq_right (by norm_num [eps])]
    norm_num [eps]

lemma artanh_ne_zero {x : ℝ} (hne : x ≠ 0) (h1 : -1 < x) (h2 : x < 1) :
    artanh x ≠ 0 := by
  unfold artanh
  intro h
  have hx1 : (0 : ℝ) < 1 - x := by linarith
  have hx2 : (0 : ℝ) < 1 + x := by linarith
  have ht : (0 : ℝ) < (1 + x) / (1 - x) := div_pos hx2 hx1
  have hlog : Real.log ((1 + x) / (1 - x)) = 0 := by linarith
  rcases Real.log_eq_zero.mp hlog with h' | h' | h'
  · linarith
  · have : 1 + x = 1 - x := by
      field_simp at h'
      linarith
    exact hne (by linarith)
  · linarith

lemma redRealV_ne_zero (s : RVB) : redRealV s ≠ 0 := by
  have h := unitToSigned_mem (redF s)
  exact artanh_ne_zero (unitToSigned_int_ne (getRed s)) h.1 h.2

lemma greenRealV_ne_zero (s : RVB) : greenRealV s ≠ 0 := by
  have h := unitToSigned_mem (greenF s)
  exact artanh_ne_zero (unitToSigned_int_ne (getGreen s)) h.1 h.2

lemma blueRealV_ne_zero (s : RVB) : blueRealV s ≠ 0 := by
  have h := unitToSigned_mem (blueF s)
  exact artanh_ne_zero (unitToSigned_int_ne (getBlue s)) h.1 h.2

lemma unitToReal_ok {v : ℝ} (h0 : 0 ≤ v) (h1 : v ≤ 1) :
    unitToReal v = .ok (artanh (unitToSigned v)) := by
  unfold unitToReal
  rw [if_neg (by rintro (h | h) <;> linarith)]

lemma channelF_mem {c : ℤ} (h0 : 0 ≤ c) (h1 : c ≤ 255) :
    0 ≤ (c : ℝ) / 255 ∧ (c : ℝ) / 255 ≤ 1 := by
  constructor
  · positivity
  · rw [div_le_one (by norm_num)]
    exact_mod_cast h1.trans (by norm_num)

lemma getRedReal_ok {s : RVB} (h0 : 0 ≤ getRed s) (h1 : getRed s ≤ 255) :
    getRedReal s = .ok (redRealV s) := by
  obtain ⟨ha, hb⟩ := channelF_mem h0 h1
  exact unitToReal_ok ha hb

lemma getGreenReal_ok {s : RVB} (h0 : 0 ≤ getGreen s) (h1 : getGreen s ≤ 255) :
    getGreenReal s = .ok (greenRealV s) := by
  obtain ⟨ha, hb⟩ := channelF_mem h0 h1
  exact unitToReal_ok ha hb

lemma getBlueReal_ok {s : RVB} (h0 : 0 ≤ getBlue s) (h1 : getBlue s ≤ 255) :
    getBlueReal s = .ok (blueRealV s) := by
  obtain ⟨ha, hb⟩ := channelF_mem h0 h1
  exact unitToReal_ok ha hb

/-- C3: on colors with validated channels, multiplication surfaces a
zero denominator `r₁+r₂ = 0` as a raised division error (the
specification's degenerate-operation error) and fails exactly on such
denominators — never by silently producing NaN or an infinity; a
zero real-domain channel, the trigger for the corresponding inversion
error, cannot occur at all, so inversion always succeeds. -/
theorem oklabDegenerateDenominators : ∀ s o : RVB, validRVB s → validRVB o →
    (redRealV s + redRealV o = 0 → oklabMul s o = .error .zeroDivision)
      ∧ ((oklabMul s o).isOk = false ↔
        (redRealV s + redRealV o = 0 ∨ greenRealV s + greenRealV o = 0
          ∨ blueRealV s + blueRealV o = 0))
      ∧ redRealV s ≠ 0 ∧ greenRealV s ≠ 0 ∧ blueRealV s ≠ 0
      ∧ (oklabInvert s).isOk = true := by
  intro s o hs ho
  obtain ⟨hs1, hs2, hs3, hs4, hs5, hs6⟩ := hs
  obtain ⟨ho1, ho2, ho3, ho4, ho5, ho6⟩ := ho
  have hmul : oklabMul s o =
      (pydiv (redRealV s * redRealV o) (redRealV s + redRealV o)).bind fun r =>
        (pydiv (greenRealV s * greenRealV o) (greenRealV s + greenRealV o)).bind fun g =>
          (pydiv (blueRealV s * blueRealV o) (blueRealV s + blueRealV o)).bind fun b =>
            .ok (setBlueReal b (setGreenReal g (setRedReal r rvbDefault))) := by
    unfold oklabMul
    rw [getRedReal_ok hs1 hs2, getRedReal_ok ho1 ho2,
      getGreenReal_ok hs3 hs4, getGreenReal_ok ho3 ho4,
      getBlueReal_ok hs5 hs6, getBlueReal_ok ho5 ho6]
    rfl
  have hinv : (oklabInvert s).isOk = true := by
    unfold oklabInvert
    rw [getRedReal_ok hs1 hs2, getGreenReal_ok hs3 hs4, getBlueReal_ok hs5 hs6]
    simp only [bind_ok_eq, pydiv, if_neg (redRealV_ne_zero s),
      if_neg (greenRealV_ne_zero s), if_neg (blueRealV_ne_zero s)]
    rfl
  refine ⟨?_, ?_, redRealV_ne_zero s, greenRealV_ne_zero s, blueRealV_ne_zero s, hinv⟩
  · intro hr
    rw [hmul]
    simp [pydiv, if_pos hr, Except.bind]
  · rw [hmul]
    by_cases hr : redRealV s + redRealV o = 0 <;>
      by_cases hg : greenRealV s + greenRealV o = 0 <;>
      by_cases hb : blueRealV s + blueRealV o = 0 <;>
      simp [pydiv, hr, hg, hb, bind_ok_eq, bind_error_eq, Except.bind,
        Except.isOk, Except.toBool]

/-- C3 witness: the degenerate-denominator theorem applied to the colors
(0, 10, 20) and (255, 30, 40); their red real-line views cancel (the
channels 0 and 255 map to exactly opposite real values), so the
multiplication raises, while inversion of the first color succeeds. -/
theorem oklabDegenerateDenominatorsWitness :
    validRVB ⟨some 0, some 10, some 20⟩ ∧ validRVB ⟨some 255, some 30, some 40⟩
      ∧ ((redRealV ⟨some 0, some 10, some 20⟩ + redRealV ⟨some 255, some 30, some 40⟩ = 0 →
          oklabMul ⟨some 0, some 10, some 20⟩ ⟨some 255, some 30, some 40⟩ =
            .error .zeroDivision)
        ∧ ((oklabMul ⟨some 0, some 10, some 20⟩ ⟨some 255, some 30, some 40⟩).isOk = false ↔
          (redRealV ⟨some 0, some 10, some 20⟩ + redRealV ⟨some 255, some 30, some 40⟩ = 0
            ∨ greenRealV ⟨some 0, some 10, some 20⟩ + greenRealV ⟨some 255, some 30, some 40⟩ = 0
            ∨ blueRealV ⟨some 0, some 10, some 20⟩ + blueRealV ⟨some 255, some 30, some 40⟩ = 0))
        ∧ redRealV ⟨some 0, some 10, some 20⟩ ≠ 0
        ∧ greenRealV ⟨some 0, some 10, some 20⟩ ≠ 0
        ∧ blueRealV ⟨some 0, some 10, some 20⟩ ≠ 0
        ∧ (oklabInvert ⟨some 0, some 10, some 20⟩).isOk = true) :=
  ⟨by decide, by decide,
    oklabDegenerateDenominators ⟨some 0, some 10, some 20⟩ ⟨some 255, some 30, some 40⟩
      (by decide) (by decide)⟩

/-- C4 counterexample: assigning the in-domain value 1/1000 to the
unit-float red view stores channel 0, and reading the view back yields
0 — an error of 1/1000, far beyond floating-point tolerance (1e-6). -/
theorem setRedFQuantizesBeyondTolerance :
    setRedF (1 / 1000) ⟨some 0, some 0, some 0⟩ = .ok ⟨some 0, some 0, some 0⟩
      ∧ redF ⟨some 0, some 0, some 0⟩ = 0
      ∧ (1e-6 : ℝ) < |redF ⟨some 0, some 0, some 0⟩ - 1 / 1000| := by
  have hr : round ((1 / 1000 : ℝ) * 255) = 0 := by
    rw [round_eq]
    norm_num [Int.floor_eq_iff]
  have hf : redF ⟨some 0, some 0, some 0⟩ = 0 := by
    unfold redF getRed
    norm_num
  refine ⟨?_, hf, ?_⟩
  · unfold setRedF
    rw [if_neg (by rintro (h | h) <;> norm_num at h), hr]
  · rw [hf]
    rw [show (0 : ℝ) - 1 / 1000 = -(1 / 1000) by ring, abs_neg,
      abs_of_pos (by norm_num)]
    norm_num

/-- C4 amended: assigning an in-domain value to the unit-float red view
stores `round(v*255)`, so reading the view back reproduces the assigned
value only up to the quantization bound 1/510 (not within floating-point
tolerance); assigning a value outside [0,1] raises `UnitDomainException`
rather than clamping. -/
theorem unitViewRoundTripQuantized : ∀ (s : RVB) (v : ℝ),
    (0 ≤ v → v ≤ 1 →
      setRedF v s = .ok { s with red := some (round (v * 255)) }
        ∧ |redF { s with red := some (round (v * 255)) } - v| ≤ 1 / 510)
    ∧ (v < 0 ∨ 1 < v → setRedF v s = .error (.unitDomain v)) := by
  intro s v
  constructor
  · intro h0 h1
    constructor
    · unfold setRedF
      rw [if_neg (by rintro (h | h) <;> linarith)]
    · show |((round (v * 255) : ℤ) : ℝ) / 255 - v| ≤ 1 / 510
      have h := abs_sub_round (v * 255)
      rw [show ((round (v * 255) : ℤ) : ℝ) / 255 - v
          = ((round (v * 255) : ℤ) - v * 255) / 255 by ring, abs_div,
        abs_of_pos (by norm_num : (0 : ℝ) < 255),
        div_le_div_iff (by norm_num) (by norm_num), abs_sub_comm]
      nlinarith [h]
  · intro h
    unfold setRedF
    rw [if_pos h]

/-- C4 witness: the quantized round-trip applied at v = 1/3 and, for the
error clause, at the out-of-domain value 3/2. -/
theorem unitViewRoundTripQuantizedWitness :
    (setRedF (1 / 3) rvbDefault
        = .ok { rvbDefault with red := some (round ((1 / 3 : ℝ) * 255)) }
      ∧ |redF { rvbDefault with red := some (round ((1 / 3 : ℝ) * 255)) } - 1 / 3|
          ≤ 1 / 510)
    ∧ setRedF (3 / 2) rvbDefault = .error (.unitDomain (3 / 2)) :=
  ⟨(unitViewRoundTripQuantized rvbDefault (1 / 3)).1 (by norm_num) (by norm_num),
    (unitViewRoundTripQuantized rvbDefault (3 / 2)).2 (Or.inr (by norm_num))⟩

lemma applyGamma_zero : applyGamma 0 = .ok 0 := by
  unfold applyGamma
  rw [if_neg (by rintro (h | h) <;> norm_num at h), if_pos (by norm_num)]
  norm_num

lemma applyGamma_one : applyGamma 1 = .ok 1 := by
  unfold applyGamma
  rw [if_neg (by rintro (h | h) <;> norm_num at h),
    if_neg (by norm_num),
    show ((1 : ℝ) + 0.055) / 1.055 = 1 by norm_num, Real.one_rpow]

lemma cubeRoot_zero : cubeRoot 0 = 0 := by
  unfold cubeRoot
  rw [if_pos (by norm_num [eps])]

lemma cubeRoot_one : cubeRoot 1 = 1 := by
  unfold cubeRoot
  rw [if_neg (by norm_num [eps]), if_neg (by norm_num), Real.one_rpow]

lemma cubeRoot_wm : cubeRoot 0.9999999999 = wm := by
  unfold cubeRoot wm
  rw [if_neg (by norm_num [eps]), if_neg (by norm_num)]

lemma redF_black : redF ⟨some 0, some 0, some 0⟩ = 0 := by
  unfold redF getRed
  norm_num

lemma greenF_black : greenF ⟨some 0, some 0, some 0⟩ = 0 := by
  unfold greenF getGreen
  norm_num

lemma blueF_black : blueF ⟨some 0, some 0, some 0⟩ = 0 := by
  unfold blueF getBlue
  norm_num

lemma redF_default : redF rvbDefault = 1 := by
  unfold redF getRed rvbDefault
  norm_num

lemma greenF_default : greenF rvbDefault = 1 := by
  unfold greenF getGreen rvbDefault
  norm_num

lemma blueF_default : blueF rvbDefault = 1 := by
  unfold blueF getBlue rvbDefault
  norm_num

lemma getLab_black : getLab ⟨some 0, some 0, some 0⟩ = .ok (0, 0, 0) := by
  unfold getLab
  rw [redF_black, greenF_black, blueF_black, applyGamma_zero]
  simp only [bind_ok_eq]
  rw [show (0.4122214708 : ℝ) * 0 + 0.5363325363 * 0 + 0.0514459929 * 0 = 0 by norm_num,
    show (0.2119034982 : ℝ) * 0 + 0.6806995451 * 0 + 0.1073969566 * 0 = 0 by norm_num,
    show (0.0883024619 : ℝ) * 0 + 0.2817188376 * 0 + 0.6299787005 * 0 = 0 by norm_num,
    cubeRoot_zero]
  norm_num

lemma getLab_white :
    getLab rvbDefault = .ok (0.2063822085 + 0.7936177850 * wm, wA, wB) := by
  unfold getLab
  rw [redF_default, greenF_default, blueF_default, applyGamma_one]
  simp only [bind_ok_eq]
  rw [show (0.4122214708 : ℝ) * 1 + 0.5363325363 * 1 + 0.0514459929 * 1 = 1 by norm_num,
    show (0.2119034982 : ℝ) * 1 + 0.6806995451 * 1 + 0.1073969566 * 1
      = 0.9999999999 by norm_num,
    show (0.0883024619 : ℝ) * 1 + 0.2817188376 * 1 + 0.6299787005 * 1 = 1 by norm_num,
    cubeRoot_one, cubeRoot_wm]
  unfold wA wB
  norm_num
  ring_nf
  exact ⟨trivial, trivial, trivial⟩

lemma wm_cube : wm ^ (3 : ℕ) = 0.9999999999 := by
  unfold wm
  rw [← Real.rpow_natCast ((0.9999999999 : ℝ) ^ ((1 : ℝ) / 3)) 3,
    ← Real.rpow_mul (by norm_num)]
  norm_num

lemma wm_bounds : 1 - 3.34e-11 < wm ∧ wm < 1 - 3.33e-11 := by
  have hnn : 0 ≤ wm := Real.rpow_nonneg (by norm_num) _
  constructor
  · by_contra hcon
    push_neg at hcon
    have h := pow_le_pow_left₀ hnn hcon 3
    rw [wm_cube] at h
    have : ((1 : ℝ) - 3.34e-11) ^ (3 : ℕ) < 0.9999999999 := by norm_num
    linarith
  · by_contra hcon
    push_neg at hcon
    have h := pow_le_pow_left₀ (by norm_num) hcon 3
    rw [wm_cube] at h
    have : (0.9999999999 : ℝ) < ((1 : ℝ) - 3.33e-11) ^ (3 : ℕ) := by norm_num
    linarith

set_option maxHeartbeats 1000000 in
lemma whiteGammaRGB_red_neg : (getGammaRGB 0 wA wB).1 < 0 := by
  obtain ⟨hlo, hhi⟩ := wm_bounds
  have he1 : (3.33e-11 : ℝ) < 1 - wm := by linarith
  have he2 : (1 : ℝ) - wm < 3.34e-11 := by linarith
  have hA1 : (8.08e-11 : ℝ) < wA := by unfold wA; linarith
  have hA2 : wA < (8.12e-11 : ℝ) := by unfold wA; linarith
  have hB1 : (3.7273e-8 : ℝ) < wB := by unfold wB; linarith
  have hB2 : wB < (3.7274e-8 : ℝ) := by unfold wB; linarith
  show 4.0767416621 * ((0 : ℝ) + 0.3963377774 * wA + 0.2158037573 * wB) ^ 3
      - 3.3077115913 * ((0 : ℝ) - 0.1055613458 * wA - 0.0638541728 * wB) ^ 3
      + 0.2309699292 * ((0 : ℝ) - 0.0894841775 * wA - 1.2914855480 * wB) ^ 3 < 0
  have hl1 : (8.07e-9 : ℝ) < (0 : ℝ) + 0.3963377774 * wA + 0.2158037573 * wB := by
    linarith
  have hl2 : (0 : ℝ) + 0.3963377774 * wA + 0.2158037573 * wB < (8.08e-9 : ℝ) := by
    linarith
  have hm2 : -((0 : ℝ) - 0.1055613458 * wA - 0.0638541728 * wB) < (2.39e-9 : ℝ) := by
    linarith
  have hm0 : (0 : ℝ) ≤ -((0 : ℝ) - 0.1055613458 * wA - 0.0638541728 * wB) := by
    linarith
  have hs1 : (4.81e-8 : ℝ)
      < -((0 : ℝ) - 0.0894841775 * wA - 1.2914855480 * wB) := by
    linarith
  have hl3 : ((0 : ℝ) + 0.3963377774 * wA + 0.2158037573 * wB) ^ 3
      < (8.08e-9 : ℝ) ^ 3 :=
    pow_lt_pow_left₀ hl2 (by linarith) (by norm_num)
  have hm3 : (-((0 : ℝ) - 0.1055613458 * wA - 0.0638541728 * wB)) ^ 3
      < (2.39e-9 : ℝ) ^ 3 :=
    pow_lt_pow_left₀ hm2 hm0 (by norm_num)
  have hs3 : (4.81e-8 : ℝ) ^ 3
      < (-((0 : ℝ) - 0.0894841775 * wA - 1.2914855480 * wB)) ^ 3 :=
    pow_lt_pow_left₀ hs1 (by norm_num) (by norm_num)
  have hkey : 4.0767416621 * ((8.08e-9 : ℝ)) ^ 3 + 3.3077115913 * ((2.39e-9 : ℝ)) ^ 3
      - 0.2309699292 * ((4.81e-8 : ℝ)) ^ 3 < 0 := by norm_num
  have hmrw : ((0 : ℝ) - 0.1055613458 * wA - 0.0638541728 * wB) ^ 3
      = -((-((0 : ℝ) - 0.1055613458 * wA - 0.0638541728 * wB)) ^ 3) := by ring
  have hsrw : ((0 : ℝ) - 0.0894841775 * wA - 1.2914855480 * wB) ^ 3
      = -((-((0 : ℝ) - 0.0894841775 * wA - 1.2914855480 * wB)) ^ 3) := by ring
  rw [hmrw, hsrw]
  linarith [hl3, hm3, hs3, hkey]

/-- C2 counterexample: adding the OKLab black color (0,0,0) to itself
does not return a color at all: the L-setter computes a slightly
negative gamma-linear red target from the default white result color's
chroma, and the gamma setter raises `UnitDomainException`, so the
addition fails instead of producing a color whose L is the average. -/
theorem oklabAddBlackRaises :
    (oklabAdd ⟨some 0, some 0, some 0⟩ ⟨some 0, some 0, some 0⟩).isOk = false := by
  unfold oklabAdd getL getA getB
  rw [getLab_black]
  simp only [bind_ok_eq]
  unfold oklabSetL getA getB
  rw [getLab_white]
  simp only [bind_ok_eq]
  unfold setRedGamma unApplyGamma
  rw [show ((0 : ℝ) + 0) / 2 = 0 by norm_num]
  rw [if_pos (Or.inl whiteGammaRGB_red_neg)]
  rfl

/-- C2 amended: the OKLab addition operator realizes exactly the
specification's targets — L averaged, A and B summed — written through
the coupled, quantizing L/A/B setters onto a default-constructed color,
in that order. -/
theorem oklabAddFollowsSpecTargets : ∀ s o : RVB,
    oklabAdd s o = oklabAddSpec s o :=
  fun _ _ => rfl
